import Mathlib

/-!
# Verification of the todo.txt task manager (`todo.py`)

Shallow embedding of the task-line grammar engine, normalizer, serializer
and store of `todo.py`, together with proofs settling the specification
claims about it.

Modelling conventions:
* A Python `datetime` is a calendar `Date` plus a sub-day tick count
  (microseconds, as in Python); comparisons go through the total tick
  count based on the proleptic Gregorian ordinal (Python `date.toordinal`).
* `datetime.now()` is a parameter `now` threaded through the functions
  (the source calls it several times within one construction; the
  microsecond drift between those calls is not observable at the level of
  the claims, so a single instant is used).
* The regular expression `TODO_PATTERN` is embedded as an explicit
  backtracking matcher over `List Char`, reproducing the greedy
  match-with-backtracking semantics of Python `re.match` for this concrete
  pattern: each optional prefix group is tried consumed-first, and the
  description group `[^:+\n]*[^:+ ]` takes the longest run it can.
  The alternation branch `^;;.*` of the pattern is unreachable: lines
  starting with two semicolons always satisfy the first branch (the first
  semicolon is a valid one-character description), and `TodoTask.__init__`
  never reads the `comment` capture group, so the embedding models only
  the first branch.
* Python `set` objects of strings are modelled as insertion-ordered
  duplicate-free lists (`addTag`); the task collection `set` is modelled
  as a list with insertion keyed by the `__hash__`/`__eq__` key
  (`TodoTask.key`), which is `(due_date, todo.strip().lower())` for tasks
  and `(None, text)` for comments.
* `RuntimeError` (malformed line / empty description) and `ValueError`
  (a date matching `\d{4}-\d{2}-\d{2}` that `strptime` rejects) are the
  two failure modes of task construction, modelled by `TaskError`.
-/

namespace Todo

/-! ## Character classes and Python string helpers -/

/-- Python `str.strip()` whitespace characters (ASCII). -/
def isPyWS (c : Char) : Bool :=
  c = ' ' || c = '\t' || c = '\n' || c = '\r' || c = '\x0b' || c = '\x0c'

/-- Python whitespace for the regex class `\s` (ASCII range). -/
def isReWS (c : Char) : Bool := isPyWS c

def isUpperAZ (c : Char) : Bool := 'A' ≤ c && c ≤ 'Z'

def isDigit09 (c : Char) : Bool := '0' ≤ c && c ≤ '9'

/-- The class `[^:+\n]` from the description group of `TODO_PATTERN`. -/
def isTodoChar (c : Char) : Bool := !(c = ':' || c = '+' || c = '\n')

/-- The class `[^:+ ]` ending the description group of `TODO_PATTERN`. -/
def isTodoEnd (c : Char) : Bool := !(c = ':' || c = '+' || c = ' ')

/-- The class `[A-Z_\d]` of tag characters. -/
def isTagChar (c : Char) : Bool := isUpperAZ c || c = '_' || isDigit09 c

/-- The class `[^\s#]` of project-name characters. -/
def isProjChar (c : Char) : Bool := !(isReWS c || c = '#')

/-- `str.strip()` on a character list. -/
def pyStripData (l : List Char) : List Char :=
  ((l.dropWhile isPyWS).reverse.dropWhile isPyWS).reverse

/-- `str.strip()`. -/
def pyStrip (s : String) : String := String.mk (pyStripData s.data)

/-- `str.capitalize()`: first character uppercased, the rest lowercased. -/
def capitalizeData : List Char → List Char
  | [] => []
  | c :: cs => c.toUpper :: cs.map Char.toLower

/-- `str.lower()` on a character list (ASCII). -/
def lowerData (l : List Char) : List Char := l.map Char.toLower

/-- `startswith` test on character lists: does `s` begin with `p`? -/
def leadsWith : List Char → List Char → Bool
  | [], _ => true
  | _ :: _, [] => false
  | p :: ps, s :: ss => p = s && leadsWith ps ss

/-! ## Calendar dates and instants -/

structure Date where
  year : Nat
  month : Nat
  day : Nat
deriving DecidableEq, Repr

def isLeap (y : Nat) : Bool := (y % 4 = 0 && y % 100 ≠ 0) || y % 400 = 0

def daysInMonth (y m : Nat) : Nat :=
  if m = 2 then (if isLeap y then 29 else 28)
  else if m = 4 || m = 6 || m = 9 || m = 11 then 30
  else 31

def daysBeforeMonth (y m : Nat) : Nat :=
  (List.range (m - 1)).foldl (fun acc i => acc + daysInMonth y (i + 1)) 0

/-- Python `date.toordinal`: day number in the proleptic Gregorian calendar,
with `0001-01-01` having ordinal 1. -/
def Date.toOrdinal (d : Date) : Nat :=
  365 * (d.year - 1) + (d.year - 1) / 4 - (d.year - 1) / 100 + (d.year - 1) / 400
    + daysBeforeMonth d.year d.month + d.day

/-- The validation `strptime` applies beyond the regex shape:
year at least 1 (`MINYEAR`), month 1–12, day fitting the month. -/
def isValidDate (d : Date) : Bool :=
  1 ≤ d.year && d.year ≤ 9999 && 1 ≤ d.month && d.month ≤ 12
    && 1 ≤ d.day && d.day ≤ daysInMonth d.year d.month

/-- Microseconds per day, Python `timedelta` resolution. -/
def ticksPerDay : Nat := 86400000000

/-- A Python `datetime`: a calendar date plus microseconds within the day.
Values produced by `strptime` have `frac = 0`. -/
structure DateTime where
  date : Date
  frac : Nat
deriving DecidableEq, Repr

/-- Total microsecond count; Python `datetime` comparison and subtraction
are comparison and subtraction of this quantity. -/
def DateTime.ticks (t : DateTime) : Nat := t.date.toOrdinal * ticksPerDay + t.frac

/-- `URGENT_TIME = timedelta(days = 7)` in microseconds. -/
def urgentTicks : Int := 7 * (ticksPerDay : Int)

/-! ## The `TODO_PATTERN` regex, embedded

```
(?:(?P<later>\; )?(?:\((?P<priority>[A-Z])\) )?(?:\.(?P<due_date>\d{4}-\d{2}-\d{2}) )?
 (?:(?P<creation_date>\d{4}-\d{2}-\d{2}) )?(?P<todo>[^:+\n]*[^:+ ])
 (?:\ \+(?P<project_name>[^\s#]+)(?:\#(?P<project_seq>\d+))?)?
 (?P<tags>(?:\ \:[A-Z_\d]+)*)?)|^(?P<comment>;;).*
```
-/

/-- The capture groups of a successful match of the first branch of
`TODO_PATTERN`. `project_seq` holds the already-converted integer,
`due_date`/`creation_date` the raw (not yet validated) calendar fields. -/
structure MatchGroups where
  later : Bool
  priority : Option Char
  due_date : Option Date
  creation_date : Option Date
  todo : List Char
  project_name : Option String
  project_seq : Option Nat
  tags : List String
deriving DecidableEq, Repr

/-- Group `(?:\; )?`: consume a leading `"; "`. -/
def pLater : List Char → Option (List Char)
  | ';' :: ' ' :: rest => some rest
  | _ => none

/-- Group `(?:\((?P<priority>[A-Z])\) )?`. -/
def pPriority : List Char → Option (Char × List Char)
  | '(' :: c :: ')' :: ' ' :: rest => if isUpperAZ c then some (c, rest) else none
  | _ => none

def digitVal (c : Char) : Nat := c.toNat - 48

/-- `\d{4}-\d{2}-\d{2}` followed by one space. -/
def pDateSp : List Char → Option (Date × List Char)
  | y1 :: y2 :: y3 :: y4 :: '-' :: m1 :: m2 :: '-' :: d1 :: d2 :: ' ' :: rest =>
    if isDigit09 y1 && isDigit09 y2 && isDigit09 y3 && isDigit09 y4
        && isDigit09 m1 && isDigit09 m2 && isDigit09 d1 && isDigit09 d2 then
      some (⟨digitVal y1 * 1000 + digitVal y2 * 100 + digitVal y3 * 10 + digitVal y4,
             digitVal m1 * 10 + digitVal m2,
             digitVal d1 * 10 + digitVal d2⟩, rest)
    else none
  | _ => none

/-- Group `(?:\.(?P<due_date>\d{4}-\d{2}-\d{2}) )?`. -/
def pDue : List Char → Option (Date × List Char)
  | '.' :: rest => pDateSp rest
  | _ => none

/-- Greedy match of `(?P<todo>[^:+\n]*[^:+ ])`: the star takes as many
characters of the `[^:+\n]` run as possible and backtracks from the end
until the final character class matches. `findTodoEnd s j` looks for the
largest index `≤ j` whose character satisfies `[^:+ ]`. -/
def findTodoEnd (s : List Char) : Nat → Option Nat
  | 0 => if 0 < s.length && isTodoEnd (s.getD 0 ' ') then some 0 else none
  | j + 1 =>
    if j + 1 < s.length && isTodoEnd (s.getD (j + 1) ' ') then some (j + 1)
    else findTodoEnd s j

/-- Match the description group at the head of `s`, returning the matched
text and the remainder. -/
def matchTodoGroup (s : List Char) : Option (List Char × List Char) :=
  (findTodoEnd s (s.takeWhile isTodoChar).length).map
    fun j => (s.take (j + 1), s.drop (j + 1))

def digitsToNat (l : List Char) : Nat := l.foldl (fun acc c => acc * 10 + digitVal c) 0

/-- Group `(?:\ \+(?P<project_name>[^\s#]+)(?:\#(?P<project_seq>\d+))?)?`:
returns the project name, the optional sequence digits, and the remainder. -/
def pProject : List Char → Option (List Char × Option (List Char) × List Char)
  | ' ' :: '+' :: rest =>
    let name := rest.takeWhile isProjChar
    if name.isEmpty then none
    else
      let r2 := rest.drop name.length
      match r2 with
      | '#' :: r3 =>
        let ds := r3.takeWhile isDigit09
        if ds.isEmpty then some (name, none, r2)
        else some (name, some ds, r3.drop ds.length)
      | _ => some (name, none, r2)
  | _ => none

/-- Group `(?P<tags>(?:\ \:[A-Z_\d]+)*)?`, already split into the tag
tokens the way `__init__` splits the capture on `':'`. -/
def pTagsAux : Nat → List Char → List String
  | 0, _ => []
  | fuel + 1, ' ' :: ':' :: rest =>
    let tok := rest.takeWhile isTagChar
    if tok.isEmpty then []
    else String.mk tok :: pTagsAux fuel (rest.drop tok.length)
  | _ + 1, _ => []

def pTags (s : List Char) : List String := pTagsAux s.length s

/-- After the four optional prefix groups have been decided, match the
description, project and tags groups (the latter two always succeed,
possibly empty, so no backtracking escapes this stage). -/
def matchStage4 (lat : Bool) (pri : Option Char) (due cre : Option Date)
    (s : List Char) : Option MatchGroups :=
  (matchTodoGroup s).map fun tr =>
    match pProject tr.2 with
    | some (name, seqDigits, r2) =>
      { later := lat, priority := pri, due_date := due, creation_date := cre,
        todo := tr.1, project_name := some (String.mk name),
        project_seq := seqDigits.map digitsToNat, tags := pTags r2 }
    | none =>
      { later := lat, priority := pri, due_date := due, creation_date := cre,
        todo := tr.1, project_name := none, project_seq := none,
        tags := pTags tr.2 }

/-- Optional creation-date group, greedy with backtracking. -/
def matchStage3 (lat : Bool) (pri : Option Char) (due : Option Date)
    (s : List Char) : Option MatchGroups :=
  (match pDateSp s with
   | some (cre, r) => matchStage4 lat pri due (some cre) r
   | none => none) <|> matchStage4 lat pri due none s

/-- Optional due-date group, greedy with backtracking. -/
def matchStage2 (lat : Bool) (pri : Option Char) (s : List Char) :
    Option MatchGroups :=
  (match pDue s with
   | some (due, r) => matchStage3 lat pri (some due) r
   | none => none) <|> matchStage3 lat pri none s

/-- Optional priority group, greedy with backtracking. -/
def matchStage1 (lat : Bool) (s : List Char) : Option MatchGroups :=
  (match pPriority s with
   | some (c, r) => matchStage2 lat (some c) r
   | none => none) <|> matchStage2 lat none s

/-- `re.match(TODO_PATTERN, line)`: the whole first branch, starting with
the optional deferral-marker group. -/
def matchCore (s : List Char) : Option MatchGroups :=
  (match pLater s with
   | some r => matchStage1 true r
   | none => none) <|> matchStage1 false s

/-! ## The serializer `make_todo` -/

def digitChar (n : Nat) : Char := Char.ofNat (48 + n)

/-- `strftime("%y-%m-%d")`: two-digit zero-padded year modulo 100, month
and day. -/
def strftimeData (d : Date) : List Char :=
  [digitChar (d.year % 100 / 10), digitChar (d.year % 100 % 10), '-',
   digitChar (d.month / 10), digitChar (d.month % 10), '-',
   digitChar (d.day / 10), digitChar (d.day % 10)]

/-- The two construction failures: `RuntimeError` (malformed line or empty
description) and `ValueError` (calendar-invalid date in `strptime`). -/
inductive TaskError where
  | runtime
  | value
deriving DecidableEq, Repr

/-- The tag-emission loop at the end of `make_todo`:
`for t in tags: t = t.strip(); if t: todo_string += " :" + t.upper()`. -/
def appendTags (tags : List String) (acc : List Char) : List Char :=
  tags.foldl (fun acc t =>
    if (pyStripData t.data).isEmpty then acc
    else acc ++ (' ' :: ':' :: (pyStripData t.data).map Char.toUpper)) acc

/-- `make_todo` of `todo.py`, on character lists: canonical serialization.
Field order: deferral marker iff the tags meet {LATER, WAITING}, priority
iff an uppercase letter, due date as `.%y-%m-%d `, creation date as
`%y-%m-%d `, capitalized description, ` +project` with `#seq` iff the
sequence number is nonzero, then ` :TAG` per tag. Raises `RuntimeError`
when the description strips to empty. -/
def makeTodoData (todo : List Char) (due_date : Option DateTime)
    (priority : Option Char) (creation_date : Option DateTime)
    (project_name : Option String) (project_seq : Nat)
    (tags : List String) : Except TaskError (List Char) :=
  let sLater : List Char :=
    if tags.any (fun t => decide (t = "LATER") || decide (t = "WAITING"))
    then [';', ' '] else []
  let sPri : List Char :=
    match priority with
    | some p => if isUpperAZ p then ['(', p, ')', ' '] else []
    | none => []
  let sDue : List Char :=
    match due_date with
    | some d => '.' :: (strftimeData d.date ++ [' '])
    | none => []
  let sCre : List Char :=
    match creation_date with
    | some c => strftimeData c.date ++ [' ']
    | none => []
  if (pyStripData todo).isEmpty then .error .runtime
  else
    let sProj : List Char :=
      match project_name with
      | some pn =>
        (' ' :: '+' :: pn.data)
          ++ (if project_seq ≠ 0 then '#' :: (toString project_seq).data else [])
      | none => []
    .ok (appendTags tags
      (sLater ++ sPri ++ sDue ++ sCre ++ capitalizeData todo ++ sProj))

/-! ## Task construction (`TodoTask.__init__`) -/

/-- The task record: the attributes `TodoTask.__init__` assigns. Fields
that are `None` for comments are `Option`s. -/
structure TodoTask where
  later : Option Bool
  priority : Option Char
  due_date : Option DateTime
  creation_date : Option DateTime
  todo : Option String
  project_name : Option String
  project_seq : Option Nat
  tags : List String
  comment : Bool
  text : String
deriving DecidableEq, Repr

/-- The comment branch of `__init__`: everything `None`, empty tag set,
text is the (stripped) line, prefixed with `";; "` when not already. -/
def commentTask (line : String) : TodoTask :=
  { later := none, priority := none, due_date := none, creation_date := none,
    todo := none, project_name := none, project_seq := none, tags := [],
    comment := true,
    text := if leadsWith [';', ';', ' '] line.data then line
            else String.mk ([';', ';', ' '] ++ line.data) }

/-- Python `set.add` on the insertion-ordered duplicate-free tag list. -/
def addTag (l : List String) (t : String) : List String :=
  if t ∈ l then l else l ++ [t]

/-- `set([...])` applied to the parsed tag tokens. -/
def setOfList (l : List String) : List String := l.foldl addTag []

/-- `strptime` of the optional due-date group. -/
def parseDueOpt : Option Date → Except TaskError (Option DateTime)
  | none => .ok none
  | some d => if isValidDate d then .ok (some ⟨d, 0⟩) else .error .value

/-- `strptime` of the optional creation-date group, defaulting to `now`. -/
def parseCreOpt (now : DateTime) : Option Date → Except TaskError DateTime
  | none => .ok now
  | some d => if isValidDate d then .ok ⟨d, 0⟩ else .error .value

/-- `if self.due_date and self.due_date < datetime.now(): self.tags.add("OVERDUE")`. -/
def overdueTags (now : DateTime) (due : Option DateTime) (tags : List String) :
    List String :=
  match due with
  | some d => if d.ticks < now.ticks then addTag tags "OVERDUE" else tags
  | none => tags

/-- The priority-escalation block of `__init__`: `OVERDUE` forces `A`;
otherwise a due date less than `URGENT_TIME` away (by `datetime`
subtraction) forces `C` unless the parsed priority is `A` or `B`. -/
def escalate (now : DateTime) (due : Option DateTime) (tags : List String)
    (p : Option Char) : Option Char :=
  if "OVERDUE" ∈ tags then some 'A'
  else
    match due with
    | some d =>
      if (d.ticks : Int) - (now.ticks : Int) < urgentTicks
          ∧ p ≠ some 'A' ∧ p ≠ some 'B' then some 'C'
      else p
    | none => p

/-- The deferral block of `__init__`: a matched marker sets `later` and
adds the `LATER` tag; otherwise `later` is set iff the tags meet
{LATER, WAITING}. Returns `(later, tags)`. -/
def deriveLater (lat : Bool) (tags : List String) : Bool × List String :=
  if lat then (true, addTag tags "LATER")
  else if tags.any (fun t => decide (t = "LATER") || decide (t = "WAITING"))
  then (true, tags)
  else (false, tags)

/-- The non-comment branch of `__init__` after a successful regex match. -/
def buildTask (now : DateTime) (g : MatchGroups) : Except TaskError TodoTask :=
  match parseDueOpt g.due_date with
  | .error e => .error e
  | .ok due =>
    let tags1 := overdueTags now due (setOfList g.tags)
    let priority := escalate now due tags1 g.priority
    match parseCreOpt now g.creation_date with
    | .error e => .error e
    | .ok creation =>
      let todoCap := capitalizeData g.todo
      let pseq := g.project_seq.getD 0
      let lt := deriveLater g.later tags1
      match makeTodoData todoCap due priority (some creation)
          g.project_name pseq lt.2 with
      | .error e => .error e
      | .ok text =>
        .ok { later := some lt.1, priority := priority, due_date := due,
              creation_date := some creation,
              todo := some (String.mk todoCap),
              project_name := g.project_name, project_seq := some pseq,
              tags := lt.2, comment := false, text := String.mk text }

/-- `TodoTask.__init__(line, comment)`: strip, comment check, regex match,
normalization. `prioritize` is never passed `False` in the program. -/
def mkTask (now : DateTime) (rawLine : String) (comment : Bool) :
    Except TaskError TodoTask :=
  let line := pyStrip rawLine
  if comment || leadsWith [';', ';', ' '] line.data then .ok (commentTask line)
  else
    match matchCore line.data with
    | none => .error .runtime
    | some g => buildTask now g

/-! ## Equality key and the store -/

/-- `__hash__`/`__eq__` key: `(due_date, todo.strip().lower())` for tasks,
`(due_date, text)` (with `due_date = None`) for comments. -/
def TodoTask.key (t : TodoTask) : Option DateTime × String :=
  (t.due_date,
   match t.todo with
   | some td => String.mk (lowerData (pyStripData td.data))
   | none => t.text)

/-- Python `set.add` on the task collection: keeps the collection (and its
already-present member) unchanged when an equal-keyed task exists. -/
def setAdd (l : List TodoTask) (t : TodoTask) : List TodoTask :=
  if l.any (fun y => decide (y.key = t.key)) then l else l ++ [t]

/-- One line of `get_tasks`: parse; on `RuntimeError` fall back to a
comment task; a `ValueError` escapes the store. -/
def loadStep (now : DateTime) (todos : List TodoTask) (l : String) :
    Except TaskError (List TodoTask) :=
  match mkTask now l false with
  | .ok t => .ok (setAdd todos t)
  | .error .runtime => .ok (setAdd todos (commentTask (pyStrip l)))
  | .error .value => .error .value

/-- `get_tasks`: fold the lines of the file into the deduplicated set. -/
def get_tasks (now : DateTime) (lines : List String) :
    Except TaskError (List TodoTask) :=
  lines.foldlM (loadStep now) []

/-- One task text of `add`: parse; on `RuntimeError` skip (nothing added);
a `ValueError` escapes. -/
def addStep (now : DateTime) (todos : List TodoTask) (task : String) :
    Except TaskError (List TodoTask) :=
  match mkTask now task false with
  | .ok t => .ok (setAdd todos t)
  | .error .runtime => .ok todos
  | .error .value => .error .value

def addTasks (now : DateTime) (todos : List TodoTask) (tasks : List String) :
    Except TaskError (List TodoTask) :=
  tasks.foldlM (addStep now) todos

/-! ## Ordering by canonical text and `list` -/

/-- Python string `<`: lexicographic comparison of code points. -/
def charListLt : List Char → List Char → Bool
  | _, [] => false
  | [], _ :: _ => true
  | a :: as, b :: bs =>
    decide (a.toNat < b.toNat) || (decide (a.toNat = b.toNat) && charListLt as bs)

/-- The sort key order `key = lambda x: x.text`, as a non-strict relation. -/
def textLeB (a b : TodoTask) : Bool := !charListLt b.text.data a.text.data

def textLeR (a b : TodoTask) : Prop := textLeB a b = true

instance : DecidableRel textLeR := fun a b => by unfold textLeR; infer_instance

/-- `sorted(tasks, key = lambda x: x.text)` (a stable sort). -/
def sortByText (l : List TodoTask) : List TodoTask := List.insertionSort textLeR l

/-- `list(tags = ...)` without the printing: keep the tasks whose tag set
meets the filter (when the filter is nonempty), sorted by canonical text. -/
def listTasks (tasks : List TodoTask) (tagFilter : List String) : List TodoTask :=
  sortByText
    (if tagFilter.isEmpty then tasks
     else tasks.filter (fun t => t.tags.any (fun tg => decide (tg ∈ tagFilter))))

/-! ## Helper lemmas -/

theorem mem_addTag {x t : String} {l : List String} :
    x ∈ addTag l t ↔ x ∈ l ∨ x = t := by
  unfold addTag
  split
  · rename_i hmem
    constructor
    · exact Or.inl
    · rintro (hx | rfl)
      · exact hx
      · exact hmem
  · simp

theorem mem_setOfList_aux {x : String} :
    ∀ (l acc : List String), x ∈ l.foldl addTag acc ↔ x ∈ acc ∨ x ∈ l := by
  intro l
  induction l with
  | nil => intro acc; simp
  | cons t ts ih =>
    intro acc
    simp only [List.foldl_cons, ih, mem_addTag, List.mem_cons]
    tauto

theorem mem_setOfList {x : String} {l : List String} :
    x ∈ setOfList l ↔ x ∈ l := by
  unfold setOfList; rw [mem_setOfList_aux]; simp

theorem mem_overdueTags {now : DateTime} {due : Option DateTime}
    {tags : List String} :
    "OVERDUE" ∈ overdueTags now due tags ↔
      "OVERDUE" ∈ tags ∨ ∃ d, due = some d ∧ d.ticks < now.ticks := by
  cases due with
  | none => simp [overdueTags]
  | some d =>
    by_cases hd : d.ticks < now.ticks <;>
      simp [overdueTags, hd, mem_addTag]

theorem anyLW_iff {tags : List String} :
    tags.any (fun t => decide (t = "LATER") || decide (t = "WAITING")) = true ↔
      "LATER" ∈ tags ∨ "WAITING" ∈ tags := by
  simp only [List.any_eq_true, Bool.or_eq_true, decide_eq_true_eq]
  constructor
  · rintro ⟨x, hx, rfl | rfl⟩
    · exact Or.inl hx
    · exact Or.inr hx
  · rintro (hx | hx)
    · exact ⟨_, hx, Or.inl rfl⟩
    · exact ⟨_, hx, Or.inr rfl⟩

theorem deriveLater_snd (lat : Bool) (tags : List String) :
    (deriveLater lat tags).2 = if lat then addTag tags "LATER" else tags := by
  unfold deriveLater
  cases lat
  · simp only [if_neg Bool.false_ne_true, Bool.false_eq_true, if_false]
    split <;> rfl
  · rfl

theorem deriveLater_fst (lat : Bool) (tags : List String) :
    (deriveLater lat tags).1 =
      (lat || tags.any (fun t => decide (t = "LATER") || decide (t = "WAITING"))) := by
  cases lat
  · cases hb : tags.any (fun t => decide (t = "LATER") || decide (t = "WAITING")) <;>
      simp [deriveLater, hb]
  · simp [deriveLater]

theorem mem_deriveLater_snd {x : String} {lat : Bool} {tags : List String} :
    x ∈ (deriveLater lat tags).2 ↔ x ∈ tags ∨ (lat = true ∧ x = "LATER") := by
  rw [deriveLater_snd]
  cases lat <;> simp [mem_addTag]

/-- Inversion of the non-comment branch of `mkTask`. -/
theorem mkTask_ok_nonComment {now : DateTime} {line : String} {t : TodoTask}
    (h : mkTask now line false = .ok t) (hc : t.comment = false) :
    ∃ g, matchCore (pyStrip line).data = some g ∧ buildTask now g = .ok t := by
  unfold mkTask at h
  simp only [Bool.false_or] at h
  split at h
  · rename_i hlead
    have ht : t = commentTask (pyStrip line) := (Except.ok.inj h).symm
    rw [ht] at hc
    simp [commentTask] at hc
  · split at h
    · exact absurd h (by simp)
    · rename_i g hg
      exact ⟨g, hg, h⟩

/-- Inversion of `buildTask`: the fields of a successfully built task. -/
theorem buildTask_ok_fields {now : DateTime} {g : MatchGroups} {t : TodoTask}
    (h : buildTask now g = .ok t) :
    ∃ due creation textData,
      parseDueOpt g.due_date = .ok due ∧
      parseCreOpt now g.creation_date = .ok creation ∧
      makeTodoData (capitalizeData g.todo) due
        (escalate now due (overdueTags now due (setOfList g.tags)) g.priority)
        (some creation) g.project_name (g.project_seq.getD 0)
        (deriveLater g.later (overdueTags now due (setOfList g.tags))).2
        = .ok textData ∧
      t = { later := some (deriveLater g.later
                      (overdueTags now due (setOfList g.tags))).1,
            priority := escalate now due
                      (overdueTags now due (setOfList g.tags)) g.priority,
            due_date := due, creation_date := some creation,
            todo := some (String.mk (capitalizeData g.todo)),
            project_name := g.project_name,
            project_seq := some (g.project_seq.getD 0),
            tags := (deriveLater g.later
                      (overdueTags now due (setOfList g.tags))).2,
            comment := false, text := String.mk textData } := by
  unfold buildTask at h
  split at h
  · exact absurd h (by simp)
  · rename_i due hdue
    split at h
    · exact absurd h (by simp)
    · rename_i creation hcre
      dsimp only [] at h
      split at h
      · exact absurd h (by simp)
      · rename_i textData htext
        exact ⟨due, creation, textData, hdue, hcre, htext, (Except.ok.inj h).symm⟩

/-! ### Order properties of the canonical-text comparison -/

theorem charListLt_asymm :
    ∀ (a b : List Char), charListLt a b = true → charListLt b a = true → False := by
  intro a
  induction a with
  | nil =>
    intro b h1 h2
    cases b with
    | nil => simp [charListLt] at h1
    | cons y ys => simp [charListLt] at h2
  | cons x xs ih =>
    intro b h1 h2
    cases b with
    | nil => simp [charListLt] at h1
    | cons y ys =>
      simp only [charListLt, Bool.or_eq_true, Bool.and_eq_true,
        decide_eq_true_eq] at h1 h2
      rcases h1 with h1 | ⟨e1, t1⟩ <;> rcases h2 with h2 | ⟨e2, t2⟩
      · omega
      · omega
      · omega
      · exact ih ys t1 t2

theorem charListLt_cotrans :
    ∀ (a b c : List Char), charListLt a c = true →
      charListLt a b = true ∨ charListLt b c = true := by
  intro a
  induction a with
  | nil =>
    intro b c h
    cases c with
    | nil => simp [charListLt] at h
    | cons z zs =>
      cases b with
      | nil => exact Or.inr h
      | cons y ys => exact Or.inl (by simp [charListLt])
  | cons x xs ih =>
    intro b c h
    cases c with
    | nil => simp [charListLt] at h
    | cons z zs =>
      cases b with
      | nil => exact Or.inr (by simp [charListLt])
      | cons y ys =>
        simp only [charListLt, Bool.or_eq_true, Bool.and_eq_true,
          decide_eq_true_eq] at h ⊢
        rcases h with h | ⟨e, t⟩
        · by_cases hxy : x.toNat < y.toNat
          · exact Or.inl (Or.inl hxy)
          · exact Or.inr (Or.inl (by omega))
        · by_cases hxy : x.toNat < y.toNat
          · exact Or.inl (Or.inl hxy)
          · by_cases hyz : y.toNat < z.toNat
            · exact Or.inr (Or.inl hyz)
            · have exy : x.toNat = y.toNat := by omega
              have eyz : y.toNat = z.toNat := by omega
              rcases ih ys zs t with h1 | h1
              · exact Or.inl (Or.inr ⟨exy, h1⟩)
              · exact Or.inr (Or.inr ⟨eyz, h1⟩)

instance : IsTotal TodoTask textLeR := by
  constructor
  intro a b
  unfold textLeR textLeB
  cases hab : charListLt b.text.data a.text.data
  · exact Or.inl rfl
  · cases hba : charListLt a.text.data b.text.data
    · exact Or.inr rfl
    · exact absurd (charListLt_asymm _ _ hab hba) not_false

instance : IsTrans TodoTask textLeR := by
  constructor
  intro a b c hab hbc
  unfold textLeR textLeB at *
  simp only [Bool.not_eq_true'] at hab hbc ⊢
  cases hca : charListLt c.text.data a.text.data
  · rfl
  · rcases charListLt_cotrans _ b.text.data _ hca with h | h
    · rw [h] at hbc; exact hbc
    · rw [h] at hab; exact hab

/-! ### The serializer only emits the deferral marker for LATER/WAITING -/

theorem appendTags_cons (t : String) (ts : List String) (acc : List Char) :
    appendTags (t :: ts) acc =
      appendTags ts
        (if (pyStripData t.data).isEmpty then acc
         else acc ++ (' ' :: ':' :: (pyStripData t.data).map Char.toUpper)) := rfl

theorem appendTags_extends :
    ∀ (tags : List String) (acc : List Char),
      ∃ suf, appendTags tags acc = acc ++ suf := by
  intro tags
  induction tags with
  | nil => intro acc; exact ⟨[], by simp [appendTags]⟩
  | cons t ts ih =>
    intro acc
    rw [appendTags_cons]
    by_cases he : (pyStripData t.data).isEmpty
    · rw [if_pos he]; exact ih acc
    · rw [if_neg he]
      obtain ⟨suf, hs⟩ := ih (acc ++ (' ' :: ':' :: (pyStripData t.data).map Char.toUpper))
      exact ⟨(' ' :: ':' :: (pyStripData t.data).map Char.toUpper) ++ suf, by
        rw [hs, List.append_assoc]⟩

theorem digitChar_ne_semicolon {k : Nat} (hk : k ≤ 9) : digitChar k ≠ ';' := by
  interval_cases k <;> decide

/-- If the serialization base is the optional `"; "` marker followed by
text whose first character is not a semicolon, then the serialized output
begins with `"; "` exactly when the marker was emitted. -/
theorem take2_marker (tags : List String) (rest out : List Char)
    (h : appendTags tags
          ((if tags.any (fun t => decide (t = "LATER") || decide (t = "WAITING"))
            then [';', ' '] else []) ++ rest) = out)
    (hrest : ∃ hd, rest.head? = some hd ∧ hd ≠ ';') :
    (out.take 2 = [';', ' ']) ↔
      tags.any (fun t => decide (t = "LATER") || decide (t = "WAITING")) = true := by
  obtain ⟨suf, hsuf⟩ := appendTags_extends tags
    ((if tags.any (fun t => decide (t = "LATER") || decide (t = "WAITING"))
      then [';', ' '] else []) ++ rest)
  rw [hsuf] at h
  subst h
  obtain ⟨hd, hhead, hne⟩ := hrest
  cases rest with
  | nil => simp at hhead
  | cons a tl =>
    have ha : a = hd := by simpa using hhead
    subst ha
    cases hany : tags.any (fun t => decide (t = "LATER") || decide (t = "WAITING")) with
    | true => exact iff_of_true rfl rfl
    | false =>
      simp only [Bool.false_eq_true, iff_false]
      intro hx
      have hx2 : a :: (tl ++ suf).take 1 = [';', ' '] := hx
      exact hne (List.cons.inj hx2).1

theorem makeTodo_marker {todo : List Char} {due : Option DateTime}
    {pri : Option Char} {pname : Option String}
    {pseq : Nat} {tags : List String} {out : List Char} (c : DateTime)
    (h : makeTodoData todo due pri (some c) pname pseq tags = .ok out) :
    (out.take 2 = [';', ' ']) ↔
      tags.any (fun t => decide (t = "LATER") || decide (t = "WAITING")) = true := by
  unfold makeTodoData at h
  dsimp only [] at h
  split at h
  · exact absurd h (by simp)
  · have hout := Except.ok.inj h
    rw [List.append_assoc, List.append_assoc, List.append_assoc,
      List.append_assoc] at hout
    refine take2_marker tags _ out hout ?_
    -- the text after the optional marker starts with '(', '.', or a digit
    cases hp : pri with
    | some p =>
      by_cases hu : isUpperAZ p
      · exact ⟨'(', by simp [hu], by decide⟩
      · cases hdue : due with
        | some d => exact ⟨'.', by simp [hu], by decide⟩
        | none =>
          refine ⟨digitChar (c.date.year % 100 / 10), by simp [hu, strftimeData], ?_⟩
          exact digitChar_ne_semicolon (by
            have : c.date.year % 100 < 100 := Nat.mod_lt _ (by norm_num)
            omega)
    | none =>
      cases hdue : due with
      | some d => exact ⟨'.', by simp, by decide⟩
      | none =>
        refine ⟨digitChar (c.date.year % 100 / 10), by simp [strftimeData], ?_⟩
        exact digitChar_ne_semicolon (by
          have : c.date.year % 100 < 100 := Nat.mod_lt _ (by norm_num)
          omega)

/-! ### The `later` capture group marks exactly a consumed leading `"; "` -/

theorem orElse_eq_some {α : Type} {a b : Option α} {x : α}
    (h : (a <|> b) = some x) : a = some x ∨ b = some x := by
  cases a with
  | none => exact Or.inr h
  | some v => exact Or.inl h

theorem matchStage4_later {lat : Bool} {pri : Option Char} {due cre : Option Date}
    {s : List Char} {g : MatchGroups}
    (h : matchStage4 lat pri due cre s = some g) : g.later = lat := by
  unfold matchStage4 at h
  cases htg : matchTodoGroup s with
  | none => rw [htg] at h; exact Option.noConfusion h
  | some tr =>
    rw [htg] at h
    rw [Option.map_some'] at h
    cases hp : pProject tr.2 with
    | none => rw [hp] at h; cases h; rfl
    | some v =>
      rw [hp] at h
      obtain ⟨name, seqDigits, r2⟩ := v
      cases h; rfl

theorem matchStage3_later {lat : Bool} {pri : Option Char} {due : Option Date}
    {s : List Char} {g : MatchGroups}
    (h : matchStage3 lat pri due s = some g) : g.later = lat := by
  unfold matchStage3 at h
  rcases orElse_eq_some h with h1 | h1
  · cases hc : pDateSp s with
    | none => rw [hc] at h1; exact Option.noConfusion h1
    | some v =>
      rw [hc] at h1
      exact matchStage4_later h1
  · exact matchStage4_later h1

theorem matchStage2_later {lat : Bool} {pri : Option Char}
    {s : List Char} {g : MatchGroups}
    (h : matchStage2 lat pri s = some g) : g.later = lat := by
  unfold matchStage2 at h
  rcases orElse_eq_some h with h1 | h1
  · cases hc : pDue s with
    | none => rw [hc] at h1; exact Option.noConfusion h1
    | some v =>
      rw [hc] at h1
      exact matchStage3_later h1
  · exact matchStage3_later h1

theorem matchStage1_later {lat : Bool} {s : List Char} {g : MatchGroups}
    (h : matchStage1 lat s = some g) : g.later = lat := by
  unfold matchStage1 at h
  rcases orElse_eq_some h with h1 | h1
  · cases hc : pPriority s with
    | none => rw [hc] at h1; exact Option.noConfusion h1
    | some v =>
      rw [hc] at h1
      exact matchStage2_later h1
  · exact matchStage2_later h1

theorem pLater_inv {s r : List Char} (h : pLater s = some r) :
    s = ';' :: ' ' :: r := by
  unfold pLater at h
  split at h
  · cases h; rfl
  · exact Option.noConfusion h

/-- A successful match with the `later` group set means the line really
begins with the deferral marker, which the match consumed. -/
theorem matchCore_later_marker {s : List Char} {g : MatchGroups}
    (hm : matchCore s = some g) (hl : g.later = true) :
    ∃ r, s = ';' :: ' ' :: r := by
  unfold matchCore at hm
  rcases orElse_eq_some hm with h1 | h1
  · cases hc : pLater s with
    | none => rw [hc] at h1; exact Option.noConfusion h1
    | some r => exact ⟨r, pLater_inv hc⟩
  · have := matchStage1_later h1
    rw [hl] at this
    exact absurd this (by simp)

/-- Combined inversion: a non-comment task built by `mkTask` from a line
whose regex match is `g` carries exactly the normalized fields. -/
theorem mkTask_fields {now : DateTime} {line : String} {g : MatchGroups}
    {t : TodoTask} (hm : matchCore (pyStrip line).data = some g)
    (h : mkTask now line false = .ok t) (hc : t.comment = false) :
    ∃ due creation textData,
      parseDueOpt g.due_date = .ok due ∧
      parseCreOpt now g.creation_date = .ok creation ∧
      makeTodoData (capitalizeData g.todo) due
        (escalate now due (overdueTags now due (setOfList g.tags)) g.priority)
        (some creation) g.project_name (g.project_seq.getD 0)
        (deriveLater g.later (overdueTags now due (setOfList g.tags))).2
        = .ok textData ∧
      t = { later := some (deriveLater g.later
                      (overdueTags now due (setOfList g.tags))).1,
            priority := escalate now due
                      (overdueTags now due (setOfList g.tags)) g.priority,
            due_date := due, creation_date := some creation,
            todo := some (String.mk (capitalizeData g.todo)),
            project_name := g.project_name,
            project_seq := some (g.project_seq.getD 0),
            tags := (deriveLater g.later
                      (overdueTags now due (setOfList g.tags))).2,
            comment := false, text := String.mk textData } := by
  obtain ⟨g2, hm2, hb⟩ := mkTask_ok_nonComment h hc
  rw [hm] at hm2
  cases Option.some.inj hm2
  exact buildTask_ok_fields hb

/-! ## The claims -/

/-- C2 (corrected): for every parsed non-comment line whose explicit tag
tokens do not already contain `OVERDUE`, the derived tag `OVERDUE` is in
the final tag set exactly when the due date exists and its midnight
instant is strictly before the current *instant* — not the current date at
day granularity: a task due on the current date is tagged `OVERDUE`
whenever the current time is past midnight. -/
theorem overdue_tag_iff (now : DateTime) (line : String) (g : MatchGroups)
    (t : TodoTask) (hm : matchCore (pyStrip line).data = some g)
    (hng : "OVERDUE" ∉ g.tags)
    (h : mkTask now line false = .ok t) (hc : t.comment = false) :
    "OVERDUE" ∈ t.tags ↔ ∃ d, t.due_date = some d ∧ d.ticks < now.ticks := by
  obtain ⟨due, creation, textData, hdue, hcre, htext, ht⟩ := mkTask_fields hm h hc
  subst ht
  dsimp only
  rw [mem_deriveLater_snd, mem_overdueTags, mem_setOfList]
  simp [hng]

/-- C3 (confirmed): priority escalation precedence for every parsed
non-comment line: `OVERDUE` in the tag set forces priority `'A'`
regardless of the parsed priority; otherwise a due date whose distance to
the current instant is below the 7-day urgency window forces `'C'` unless
the parsed priority is `'A'` or `'B'`; otherwise the parsed priority is
kept unchanged. -/
theorem priority_escalation_rule (now : DateTime) (line : String)
    (g : MatchGroups) (t : TodoTask)
    (hm : matchCore (pyStrip line).data = some g)
    (h : mkTask now line false = .ok t) (hc : t.comment = false) :
    ("OVERDUE" ∈ t.tags → t.priority = some 'A') ∧
    ("OVERDUE" ∉ t.tags → ∀ d, t.due_date = some d →
      (d.ticks : Int) - (now.ticks : Int) < urgentTicks →
      g.priority ≠ some 'A' → g.priority ≠ some 'B' →
      t.priority = some 'C') ∧
    ("OVERDUE" ∉ t.tags →
      (t.due_date = none ∨
       (∀ d, t.due_date = some d →
          ¬((d.ticks : Int) - (now.ticks : Int) < urgentTicks)) ∨
       g.priority = some 'A' ∨ g.priority = some 'B') →
      t.priority = g.priority) := by
  obtain ⟨due, creation, textData, hdue, hcre, htext, ht⟩ := mkTask_fields hm h hc
  subst ht
  dsimp only
  have hmem : "OVERDUE" ∈ (deriveLater g.later
      (overdueTags now due (setOfList g.tags))).2 ↔
      "OVERDUE" ∈ overdueTags now due (setOfList g.tags) := by
    rw [mem_deriveLater_snd]; simp
  refine ⟨?_, ?_, ?_⟩
  · intro hov
    unfold escalate
    rw [if_pos (hmem.mp hov)]
  · intro hnov d hd hlt hA hB
    subst hd
    unfold escalate
    rw [if_neg (fun hx => hnov (hmem.mpr hx))]
    dsimp only
    rw [if_pos ⟨hlt, hA, hB⟩]
  · intro hnov hcase
    unfold escalate
    rw [if_neg (fun hx => hnov (hmem.mpr hx))]
    rcases hcase with hnone | hfar | hA | hB
    · rw [hnone]
    · cases due with
      | none => rfl
      | some d =>
        dsimp only
        rw [if_neg (fun hx => hfar d rfl hx.1)]
    · cases due with
      | none => rfl
      | some d =>
        dsimp only
        rw [if_neg (fun hx => hx.2.1 hA)]
    · cases due with
      | none => rfl
      | some d =>
        dsimp only
        rw [if_neg (fun hx => hx.2.2 hB)]

/-- C7 (corrected): the description of every successfully parsed
non-comment line is the matched description with its first character
uppercased and the *remaining characters lowercased* (Python
`str.capitalize`), not left unchanged. -/
theorem description_capitalized (now : DateTime) (line : String)
    (g : MatchGroups) (t : TodoTask)
    (hm : matchCore (pyStrip line).data = some g)
    (h : mkTask now line false = .ok t) (hc : t.comment = false) :
    t.todo = some (String.mk (match g.todo with
      | [] => []
      | c :: cs => c.toUpper :: cs.map Char.toLower)) := by
  obtain ⟨due, creation, textData, hdue, hcre, htext, ht⟩ := mkTask_fields hm h hc
  subst ht
  dsimp only
  cases g.todo <;> rfl

/-- C9 (corrected): when a successful match consumes the leading `"; "`
marker (`later` group set — which requires the line to begin with the
marker), the task gets `later = true` and the derived tag `LATER`; when
the match does not consume a marker, the tag set is left as parsed
(plus a possible `OVERDUE`), and `later = true` exactly when that tag set
meets {LATER, WAITING}. A line beginning with `"; "` whose remainder
cannot satisfy the grammar is re-matched without the marker, so the claim
as stated fails on such lines. -/
theorem deferral_rule (now : DateTime) (line : String)
    (g : MatchGroups) (t : TodoTask)
    (hm : matchCore (pyStrip line).data = some g)
    (h : mkTask now line false = .ok t) (hc : t.comment = false) :
    (g.later = true →
      (∃ r, (pyStrip line).data = ';' :: ' ' :: r) ∧
      t.later = some true ∧ "LATER" ∈ t.tags) ∧
    (g.later = false →
      t.tags = overdueTags now t.due_date (setOfList g.tags) ∧
      (t.later = some true ↔ ("LATER" ∈ t.tags ∨ "WAITING" ∈ t.tags))) := by
  obtain ⟨due, creation, textData, hdue, hcre, htext, ht⟩ := mkTask_fields hm h hc
  subst ht
  dsimp only
  constructor
  · intro hl
    rw [hl]
    refine ⟨matchCore_later_marker hm hl, ?_, ?_⟩
    · rw [deriveLater_fst]; rfl
    · rw [deriveLater_snd]
      simp only [if_pos rfl]
      exact mem_addTag.mpr (Or.inr rfl)
  · intro hl
    rw [hl]
    constructor
    · rw [deriveLater_snd]
      rfl
    · rw [deriveLater_fst, deriveLater_snd]
      simp only [Bool.false_or, if_neg Bool.false_ne_true]
      rw [Option.some.injEq]
      exact anyLW_iff

/-- C10 (confirmed): for every non-comment task produced by parsing, the
`later` flag is true exactly when the tag set meets {LATER, WAITING}, and
the serialized canonical text begins with the deferral marker `"; "`
exactly when the flag is true. -/
theorem later_flag_invariant (now : DateTime) (line : String) (t : TodoTask)
    (h : mkTask now line false = .ok t) (hc : t.comment = false) :
    (t.later = some true ↔ ("LATER" ∈ t.tags ∨ "WAITING" ∈ t.tags)) ∧
    (t.text.data.take 2 = [';', ' '] ↔ t.later = some true) := by
  obtain ⟨g, hm, hb⟩ := mkTask_ok_nonComment h hc
  obtain ⟨due, creation, textData, hdue, hcre, htext, ht⟩ := buildTask_ok_fields hb
  subst ht
  dsimp only
  have hiff1 : some (deriveLater g.later
        (overdueTags now due (setOfList g.tags))).1 = some true ↔
      ("LATER" ∈ (deriveLater g.later
        (overdueTags now due (setOfList g.tags))).2 ∨
       "WAITING" ∈ (deriveLater g.later
        (overdueTags now due (setOfList g.tags))).2) := by
    cases hl : g.later with
    | true =>
      rw [deriveLater_fst, deriveLater_snd]
      simp [mem_addTag]
    | false =>
      rw [deriveLater_fst, deriveLater_snd]
      simp only [Bool.false_or, if_neg Bool.false_ne_true]
      rw [Option.some.injEq]
      exact anyLW_iff
  refine ⟨hiff1, ?_⟩
  have hmark := makeTodo_marker creation htext
  have hany : (deriveLater g.later (overdueTags now due (setOfList g.tags))).2.any
        (fun t => decide (t = "LATER") || decide (t = "WAITING")) = true ↔
      some (deriveLater g.later (overdueTags now due (setOfList g.tags))).1
        = some true := by
    rw [anyLW_iff, hiff1]
  exact hmark.trans hany

/-- C4 (confirmed): adding a parsed task whose equality key
`(due_date, lowercased stripped description)` matches the key of a task
already in the collection leaves the collection unchanged — same size, and
the already-present task survives — regardless of any difference in tags,
project or priority. -/
theorem add_dedup_by_key (now : DateTime) (text : String) (t : TodoTask)
    (todos : List TodoTask) (_hparse : mkTask now text false = .ok t)
    (hdup : ∃ y ∈ todos, y.key = t.key) :
    setAdd todos t = todos ∧ (setAdd todos t).length = todos.length := by
  obtain ⟨y, hy, hk⟩ := hdup
  have hany : todos.any (fun y => decide (y.key = t.key)) = true :=
    List.any_eq_true.2 ⟨y, hy, by simp [hk]⟩
  constructor
  · unfold setAdd; rw [if_pos hany]
  · unfold setAdd; rw [if_pos hany]

/-- C5 (corrected): a line that fails the grammar (or whose description
strips to empty) raises `RuntimeError`; `get_tasks` then stores the
stripped line as a comment task (comment flag true, `";; "` prefixed),
while `add` skips it entirely; neither failure escapes the store. The
collection size grows by one only when no equal-keyed task is already
present — a duplicate malformed line is deduplicated. -/
theorem malformed_line_handling (now : DateTime) (todos : List TodoTask)
    (l : String) (h : mkTask now l false = .error .runtime) :
    loadStep now todos l = .ok (setAdd todos (commentTask (pyStrip l))) ∧
    (commentTask (pyStrip l)).comment = true ∧
    (commentTask (pyStrip l)).text
      = String.mk ([';', ';', ' '] ++ (pyStrip l).data) ∧
    addStep now todos l = .ok todos ∧
    ((¬ ∃ y ∈ todos, y.key = (commentTask (pyStrip l)).key) →
      (setAdd todos (commentTask (pyStrip l))).length = todos.length + 1) := by
  have hlead : leadsWith [';', ';', ' '] (pyStrip l).data = false := by
    cases hb : leadsWith [';', ';', ' '] (pyStrip l).data
    · rfl
    · exfalso
      unfold mkTask at h
      simp only [Bool.false_or] at h
      rw [if_pos hb] at h
      exact Except.noConfusion h
  refine ⟨?_, rfl, ?_, ?_, ?_⟩
  · unfold loadStep
    rw [h]
  · unfold commentTask
    rw [if_neg (by rw [hlead]; exact Bool.false_ne_true)]
  · unfold addStep
    rw [h]
  · intro hnodup
    unfold setAdd
    rw [if_neg ?_]
    · simp
    · intro hx
      obtain ⟨y, hy, hk⟩ := List.any_eq_true.1 hx
      exact hnodup ⟨y, hy, of_decide_eq_true hk⟩

/-- C6 (corrected): a line whose *stripped* text begins with the comment
marker `";; "` — two semicolons followed by a space — is classified
directly as a comment task with every grammar field unset; two semicolons
*not* followed by a space do not trigger this classification (the line
goes through the grammar instead). -/
theorem comment_marker_classification (now : DateTime) (line : String)
    (c : Bool) (h : leadsWith [';', ';', ' '] (pyStrip line).data = true) :
    mkTask now line c = .ok
      { later := none, priority := none, due_date := none,
        creation_date := none, todo := none, project_name := none,
        project_seq := none, tags := [], comment := true,
        text := pyStrip line } := by
  unfold mkTask
  rw [if_pos (by rw [h, Bool.or_true])]
  unfold commentTask
  rw [if_pos h]

/-- C8 (confirmed): for every collection and nonempty tag filter, `list`
returns exactly the tasks whose tag set meets the filter (in particular
any task with an empty tag set — every comment — is excluded), sorted
ascending by canonical serialized text. -/
theorem list_filter_sort (tasks : List TodoTask) (tagFilter : List String)
    (hne : tagFilter ≠ []) :
    List.Perm (listTasks tasks tagFilter)
      (tasks.filter (fun t => t.tags.any (fun tg => decide (tg ∈ tagFilter)))) ∧
    List.Sorted textLeR (listTasks tasks tagFilter) ∧
    (∀ t ∈ listTasks tasks tagFilter, t.tags ≠ []) := by
  have hf : tagFilter.isEmpty = false := by
    cases tagFilter
    · exact absurd rfl hne
    · rfl
  unfold listTasks sortByText
  rw [hf]
  simp only [Bool.false_eq_true, if_false]
  refine ⟨List.perm_insertionSort textLeR _, List.sorted_insertionSort textLeR _, ?_⟩
  intro t ht
  have hmem : t ∈ tasks.filter
      (fun t => t.tags.any (fun tg => decide (tg ∈ tagFilter))) :=
    (List.mem_insertionSort textLeR).1 ht
  have hpred := List.of_mem_filter hmem
  obtain ⟨tg, htg, _⟩ := List.any_eq_true.1 hpred
  intro htags
  rw [htags] at htg
  exact List.not_mem_nil tg htg

/-! ## Concrete instants and tasks for witnesses and counterexamples -/

/-- A fixed current instant: 2026-10-12, 12:00:00 (noon). -/
def now0 : DateTime := ⟨⟨2026, 10, 12⟩, 43200000000⟩

/-- Match groups of `".2026-10-11 Pay"`. -/
def c2g : MatchGroups :=
  { later := false, priority := none, due_date := some ⟨2026, 10, 11⟩,
    creation_date := none, todo := ['P', 'a', 'y'], project_name := none,
    project_seq := none, tags := [] }

/-- The task parsed from `".2026-10-11 Pay"` at `now0`. -/
def c2t : TodoTask :=
  { later := some false, priority := some 'A',
    due_date := some ⟨⟨2026, 10, 11⟩, 0⟩,
    creation_date := some now0, todo := some "Pay", project_name := none,
    project_seq := some 0, tags := ["OVERDUE"], comment := false,
    text := "(A) .26-10-11 26-10-12 Pay :OVERDUE" }

/-- Match groups of `"(B) .2026-10-15 Pay"`. -/
def c3g : MatchGroups :=
  { later := false, priority := some 'B', due_date := some ⟨2026, 10, 15⟩,
    creation_date := none, todo := ['P', 'a', 'y'], project_name := none,
    project_seq := none, tags := [] }

/-- The task parsed from `"(B) .2026-10-15 Pay"` at `now0`: due three days
out, explicit priority `B` kept. -/
def c3t : TodoTask :=
  { later := some false, priority := some 'B',
    due_date := some ⟨⟨2026, 10, 15⟩, 0⟩,
    creation_date := some now0, todo := some "Pay", project_name := none,
    project_seq := some 0, tags := [], comment := false,
    text := "(B) .26-10-15 26-10-12 Pay" }

/-- Match groups of `"buy MILK"`. -/
def c7g : MatchGroups :=
  { later := false, priority := none, due_date := none,
    creation_date := none, todo := ['b', 'u', 'y', ' ', 'M', 'I', 'L', 'K'],
    project_name := none, project_seq := none, tags := [] }

/-- The task parsed from `"buy MILK"` at `now0`. -/
def c7t : TodoTask :=
  { later := some false, priority := none, due_date := none,
    creation_date := some now0, todo := some "Buy milk",
    project_name := none, project_seq := some 0, tags := [],
    comment := false, text := "26-10-12 Buy milk" }

/-- Match groups of `"; buy milk"`: the deferral marker is consumed. -/
def c9g : MatchGroups :=
  { later := true, priority := none, due_date := none,
    creation_date := none, todo := ['b', 'u', 'y', ' ', 'm', 'i', 'l', 'k'],
    project_name := none, project_seq := none, tags := [] }

/-- The task parsed from `"; buy milk"` at `now0`. -/
def c9t : TodoTask :=
  { later := some true, priority := none, due_date := none,
    creation_date := some now0, todo := some "Buy milk",
    project_name := none, project_seq := some 0, tags := ["LATER"],
    comment := false, text := "; 26-10-12 Buy milk :LATER" }

/-- The task parsed from `"call bob :WAITING"` at `now0`. -/
def c10t : TodoTask :=
  { later := some true, priority := none, due_date := none,
    creation_date := some now0, todo := some "Call bob",
    project_name := none, project_seq := some 0, tags := ["WAITING"],
    comment := false, text := "; 26-10-12 Call bob :WAITING" }

/-- The task parsed from `"Pay rent :WORK"` at `now0`. -/
def c4t1 : TodoTask :=
  { later := some false, priority := none, due_date := none,
    creation_date := some now0, todo := some "Pay rent",
    project_name := none, project_seq := some 0, tags := ["WORK"],
    comment := false, text := "26-10-12 Pay rent :WORK" }

/-- The task parsed from `"pay RENT :HOME"` at `now0`: same equality key
as `c4t1` (no due date, lowercased description "pay rent"), different tag. -/
def c4t2 : TodoTask :=
  { later := some false, priority := none, due_date := none,
    creation_date := some now0, todo := some "Pay rent",
    project_name := none, project_seq := some 0, tags := ["HOME"],
    comment := false, text := "26-10-12 Pay rent :HOME" }

/-- A minimal in-memory task used to build collections for `list` tests. -/
def sampleTask (txt : String) (tags : List String) : TodoTask :=
  { later := some false, priority := none, due_date := none,
    creation_date := some now0, todo := some txt, project_name := none,
    project_seq := some 0, tags := tags, comment := false, text := txt }

/-- Five tasks of which exactly two carry the tag `WORK`. -/
def c8tasks : List TodoTask :=
  [sampleTask "b" ["WORK"], sampleTask "a" [], sampleTask "c" ["HOME"],
   sampleTask "d" ["WORK", "X"], sampleTask "e" []]

/-! ## Counterexamples and witnesses -/

/-- C1 (code bug): the serializer writes two-digit years (`%y-%m-%d`) but
the grammar demands four-digit years, so re-parsing a serialized task
absorbs the dates into the description: `parse(serialize(task))` is not
equal to `task` under the equality key, and
`serialize(parse(serialize(task)))` differs from `serialize(task)`.
Evaluated here at the task parsed from `"Buy milk"` at `now0`. -/
theorem roundtrip_breaks :
    ((mkTask now0 "Buy milk" false).map (fun t => (t.text, t.key))
      = .ok ("26-10-12 Buy milk", (none, "buy milk"))) ∧
    ((mkTask now0 "26-10-12 Buy milk" false).map (fun t => (t.key, t.text))
      = .ok ((none, "26-10-12 buy milk"), "26-10-12 26-10-12 buy milk")) ∧
    ((none, "26-10-12 buy milk") ≠
      ((none, "buy milk") : Option DateTime × String)) ∧
    "26-10-12 26-10-12 buy milk" ≠ "26-10-12 Buy milk" :=
  ⟨rfl, rfl, by decide, by decide⟩

/-- C2 counterexample: at `now0` (2026-10-12, noon) the line
`".2026-10-12 Pay bills"` has its due date *equal* to the current date,
yet the parsed task carries the tag `OVERDUE` — the claim says it must
not. -/
theorem overdue_today_counterexample :
    ((mkTask now0 ".2026-10-12 Pay bills" false).map
        (fun t => (t.due_date, t.tags.contains "OVERDUE"))
      = .ok (some ⟨⟨2026, 10, 12⟩, 0⟩, true)) ∧
    now0.date = ⟨2026, 10, 12⟩ ∧ (true : Bool) ≠ false :=
  ⟨rfl, rfl, by decide⟩

/-- C2 witness: applying the corrected rule to `".2026-10-11 Pay"` at
`now0` — yesterday's due date, `OVERDUE` present. -/
theorem overdue_tag_iff_witness :
    "OVERDUE" ∈ c2t.tags ↔
      ∃ d, c2t.due_date = some d ∧ d.ticks < now0.ticks :=
  overdue_tag_iff now0 ".2026-10-11 Pay" c2g c2t rfl (by decide) rfl rfl

/-- C3 witness: the escalation rule applied to `"(B) .2026-10-15 Pay"` at
`now0` — due three days out with explicit priority `B`, which is kept. -/
theorem priority_escalation_rule_witness :
    ("OVERDUE" ∈ c3t.tags → c3t.priority = some 'A') ∧
    ("OVERDUE" ∉ c3t.tags → ∀ d, c3t.due_date = some d →
      (d.ticks : Int) - (now0.ticks : Int) < urgentTicks →
      c3g.priority ≠ some 'A' → c3g.priority ≠ some 'B' →
      c3t.priority = some 'C') ∧
    ("OVERDUE" ∉ c3t.tags →
      (c3t.due_date = none ∨
       (∀ d, c3t.due_date = some d →
          ¬((d.ticks : Int) - (now0.ticks : Int) < urgentTicks)) ∨
       c3g.priority = some 'A' ∨ c3g.priority = some 'B') →
      c3t.priority = c3g.priority) :=
  priority_escalation_rule now0 "(B) .2026-10-15 Pay" c3g c3t rfl rfl rfl

/-- C4 witness: adding `"pay RENT :HOME"` to a collection holding the
equal-keyed `"Pay rent :WORK"` task leaves the collection unchanged. -/
theorem add_dedup_by_key_witness :
    setAdd [c4t1] c4t2 = [c4t1] ∧
    (setAdd [c4t1] c4t2).length = [c4t1].length :=
  add_dedup_by_key now0 "pay RENT :HOME" c4t2 [c4t1] rfl
    ⟨c4t1, by simp, by decide⟩

/-- C5 counterexample: loading two identical malformed lines (`":A"` fails
the grammar) produces a collection of size 1, not 2 — the second comment
is deduplicated, refuting the unconditional "size increases by one". -/
theorem malformed_dup_size_counterexample :
    ((get_tasks now0 [":A", ":A"]).map List.length = .ok 1) ∧
    (1 : Nat) ≠ 2 :=
  ⟨rfl, by decide⟩

/-- C5 witness: the malformed-line handling applied at the line `":A"`
against the empty collection. -/
theorem malformed_line_handling_witness :
    loadStep now0 [] ":A" = .ok (setAdd [] (commentTask (pyStrip ":A"))) ∧
    (commentTask (pyStrip ":A")).comment = true ∧
    (commentTask (pyStrip ":A")).text
      = String.mk ([';', ';', ' '] ++ (pyStrip ":A").data) ∧
    addStep now0 [] ":A" = .ok [] ∧
    ((¬ ∃ y ∈ ([] : List TodoTask),
        y.key = (commentTask (pyStrip ":A")).key) →
      (setAdd [] (commentTask (pyStrip ":A"))).length
        = ([] : List TodoTask).length + 1) :=
  malformed_line_handling now0 [] ":A" rfl

/-- C6 counterexample: `";;x"` — two semicolons *not* followed by a space
— is not classified as a comment; it parses as an ordinary task. -/
theorem comment_marker_counterexample :
    ((mkTask now0 ";;x" false).map TodoTask.comment = .ok false) ∧
    (false : Bool) ≠ true :=
  ⟨rfl, by decide⟩

/-- C6 witness: a line whose stripped text begins with `";; "` becomes an
all-fields-unset comment task directly. -/
theorem comment_marker_classification_witness :
    mkTask now0 ";; note" false = .ok
      { later := none, priority := none, due_date := none,
        creation_date := none, todo := none, project_name := none,
        project_seq := none, tags := [], comment := true,
        text := pyStrip ";; note" } :=
  comment_marker_classification now0 ";; note" false rfl

/-- C7 counterexample: parsing `"buy MILK"` yields the description
`"Buy milk"` — the tail is lowercased — not `"Buy MILK"` as the claim
(first character uppercased, rest unchanged) requires. -/
theorem capitalize_lowercases_counterexample :
    ((mkTask now0 "buy MILK" false).map TodoTask.todo
      = .ok (some "Buy milk")) ∧
    (some "Buy milk" ≠ some "Buy MILK") :=
  ⟨rfl, by decide⟩

/-- C7 witness: the corrected capitalization rule applied to
`"buy MILK"` at `now0`. -/
theorem description_capitalized_witness :
    c7t.todo = some (String.mk (match c7g.todo with
      | [] => []
      | c :: cs => c.toUpper :: cs.map Char.toLower)) :=
  description_capitalized now0 "buy MILK" c7g c7t rfl rfl rfl

/-- C8 witness: `list` with filter {WORK} over five tasks of which two
carry `WORK`. -/
theorem list_filter_sort_witness :
    List.Perm (listTasks c8tasks ["WORK"])
      (c8tasks.filter (fun t => t.tags.any (fun tg => decide (tg ∈ ["WORK"])))) ∧
    List.Sorted textLeR (listTasks c8tasks ["WORK"]) ∧
    (∀ t ∈ listTasks c8tasks ["WORK"], t.tags ≠ []) :=
  list_filter_sort c8tasks ["WORK"] (by decide)

/-- C9 counterexample: `"; :X"` begins with the deferral marker, but
consuming the marker leaves `":X"`, which cannot start a description, so
the match backtracks: the task has `later = false` and no `LATER` tag —
refuting the claim for this line. -/
theorem deferral_backtrack_counterexample :
    ((mkTask now0 "; :X" false).map (fun t => (t.later, t.tags))
      = .ok (some false, ["X"])) ∧
    ((some false : Option Bool) ≠ some true) :=
  ⟨rfl, by decide⟩

/-- C9 witness: the corrected deferral rule applied to `"; buy milk"` at
`now0`, whose match consumes the marker. -/
theorem deferral_rule_witness :
    (c9g.later = true →
      (∃ r, (pyStrip "; buy milk").data = ';' :: ' ' :: r) ∧
      c9t.later = some true ∧ "LATER" ∈ c9t.tags) ∧
    (c9g.later = false →
      c9t.tags = overdueTags now0 c9t.due_date (setOfList c9g.tags) ∧
      (c9t.later = some true ↔ ("LATER" ∈ c9t.tags ∨ "WAITING" ∈ c9t.tags))) :=
  deferral_rule now0 "; buy milk" c9g c9t rfl rfl rfl

/-- C10 witness: the invariant applied to the task parsed from
`"call bob :WAITING"` at `now0`. -/
theorem later_flag_invariant_witness :
    (c10t.later = some true ↔ ("LATER" ∈ c10t.tags ∨ "WAITING" ∈ c10t.tags)) ∧
    (c10t.text.data.take 2 = [';', ' '] ↔ c10t.later = some true) :=
  later_flag_invariant now0 "call bob :WAITING" c10t rfl rfl

end Todo
